import Mathlib

/-!
Verification of the CLAP_RT runtime compilation-and-hot-swap engine.

The definitions below are a shallow embedding of the repository's C++ core:

* `src/jit/JIT.cc` / `src/jit/Error.h` — the JIT driver (`ClapJIT`): symbol
  table (`findSymbol`, `lookupFunction`), object cache (`getCachePath`,
  `isCacheValid`), sidecar serialization and `addModule`;
* `src/plugin/clap_plugin.cc` — the plugin glue: `compile_dsp`,
  `query_dsp_params`, `do_recompile`, `plugin_init`, `plugin_process`, and
  the lock-free hot-swap publish protocol.

Strings and paths are modelled as byte lists (`Bytes`); machine integers as
`Nat`/`Int` with explicit reduction modulo `2 ^ 64` where the code relies on
`size_t` wrap-around; fallible operations return `Option`/`Except`; external
collaborators (the clang frontend, the ORC execution session, the host) are
modelled as explicit environments of outcomes threaded through the
functions, with the control flow of the C++ reproduced step by step.
-/

set_option maxHeartbeats 1000000

namespace ClapRT

/-- Byte strings: C++ `std::string` values, symbol names and filesystem
paths are byte sequences; we model them as lists of byte values. -/
abbrev Bytes := List Nat

/-- Helper turning an ASCII string literal into its byte list. -/
def bytes (s : String) : Bytes := s.toList.map Char.toNat

/-! ## Symbol table (`src/jit/JIT.cc`, `ClapJIT::findSymbol` /
`ClapJIT::lookupFunction`, lines 325-352)

A `SymbolEntry` is the (demangled display name, linkable name) pair recorded
in `ClapJIT::symbols_` for every defined symbol of a compiled unit. -/

structure SymbolEntry where
  demangled : Bytes
  mangled : Bytes
  deriving DecidableEq, Repr

/-- The match test of `ClapJIT::findSymbol`:
`demangled.starts_with(FunctionName) && (demangled.size() == FunctionName.size()
|| demangled[FunctionName.size()] == '(')` — byte 40 is the character `(`. -/
def symMatches (name : Bytes) (e : SymbolEntry) : Bool :=
  name.isPrefixOf e.demangled &&
    (e.demangled.length == name.length || e.demangled[name.length]? == some 40)

/-- `ClapJIT::findSymbol`: scan `symbols_` in insertion order and return the
linkable name of the first entry passing `symMatches`; `std::nullopt` when
none does. -/
def findSymbol : List SymbolEntry → Bytes → Option Bytes
  | [], _ => none
  | e :: rest, name =>
      if symMatches name e then some e.mangled else findSymbol rest name

/-- `ClapJIT::lookupFunction`: first try `findSymbol` (C++ functions found by
demangled base name) and look the mangled result up in the execution
session; when no entry matches, fall back to looking the logical name up
directly (covers `extern C` exports). The execution session's
`LLJIT::lookup` is modelled by the environment function `look`. -/
def lookupFunction (syms : List SymbolEntry) (look : Bytes → Option Nat)
    (name : Bytes) : Option Nat :=
  match findSymbol syms name with
  | some mangled => look mangled
  | none => look name

/-- The spec's matching rule, stated in its own words: an entry matches the
logical name when its demangled form equals the name exactly, or starts with
the name immediately followed by the argument-list opening delimiter `(`. -/
def matchesSpec (name : Bytes) (e : SymbolEntry) : Prop :=
  e.demangled = name ∨ ∃ rest, e.demangled = name ++ 40 :: rest

theorem isPrefixOf_eq_true_iff (l₁ l₂ : Bytes) :
    l₁.isPrefixOf l₂ = true ↔ ∃ t, l₂ = l₁ ++ t := by
  induction l₁ generalizing l₂ with
  | nil => simp [List.isPrefixOf]
  | cons a as ih =>
    cases l₂ with
    | nil => simp [List.isPrefixOf]
    | cons b bs =>
      simp only [List.isPrefixOf, Bool.and_eq_true, beq_iff_eq, ih,
        List.cons_append, List.cons.injEq]
      constructor
      · rintro ⟨hab, t, ht⟩
        exact ⟨t, hab.symm, ht⟩
      · rintro ⟨t, hb, ht⟩
        exact ⟨hb.symm, t, ht⟩

theorem symMatches_iff (name : Bytes) (e : SymbolEntry) :
    symMatches name e = true ↔ matchesSpec name e := by
  obtain ⟨dem, man⟩ := e
  unfold symMatches matchesSpec
  simp only [Bool.and_eq_true, Bool.or_eq_true, beq_iff_eq,
    isPrefixOf_eq_true_iff]
  constructor
  · rintro ⟨⟨t, ht⟩, hlen | hat⟩ <;> subst ht
    · left
      have ht0 : t = [] := by
        simp only [List.length_append] at hlen
        exact List.eq_nil_of_length_eq_zero (by omega)
      simp [ht0]
    · right
      rcases t with _ | ⟨c, rest⟩
      · rw [List.getElem?_append_right (by simp)] at hat
        simp at hat
      · rw [List.getElem?_append_right (by omega)] at hat
        simp only [Nat.sub_self, List.getElem?_cons_zero, Option.some.injEq] at hat
        exact ⟨rest, by simp [hat]⟩
  · rintro (h | ⟨rest, h⟩) <;> subst h
    · exact ⟨⟨[], by simp⟩, Or.inl rfl⟩
    · refine ⟨⟨40 :: rest, rfl⟩, Or.inr ?_⟩
      rw [List.getElem?_append_right (by omega)]
      simp

theorem findSymbol_none_iff (syms : List SymbolEntry) (name : Bytes) :
    findSymbol syms name = none ↔ ∀ e ∈ syms, symMatches name e = false := by
  induction syms with
  | nil => simp [findSymbol]
  | cons a rest ih =>
    by_cases h : symMatches name a
    · simp [findSymbol, h]
    · simp only [findSymbol, if_neg h, ih, List.mem_cons]
      constructor
      · intro hall e he
        rcases he with he | he
        · subst he
          exact Bool.eq_false_iff.mpr h
        · exact hall e he
      · intro hall e he
        exact hall e (Or.inr he)

theorem findSymbol_some_iff (syms : List SymbolEntry) (name : Bytes)
    (m : Bytes) :
    findSymbol syms name = some m ↔
      ∃ pre e post, syms = pre ++ e :: post ∧ symMatches name e = true ∧
        m = e.mangled ∧ ∀ x ∈ pre, symMatches name x = false := by
  induction syms with
  | nil =>
    simp only [findSymbol]
    constructor
    · intro h
      exact absurd h (by simp)
    · rintro ⟨pre, e, post, habs, -⟩
      exact absurd habs (by simp)
  | cons a rest ih =>
    by_cases h : symMatches name a
    · simp only [findSymbol, if_pos h, Option.some.injEq]
      constructor
      · intro hm
        exact ⟨[], a, rest, by simp, h, hm.symm, by simp⟩
      · rintro ⟨pre, e, post, hsplit, hmat, hm, hpre⟩
        cases pre with
        | nil =>
          simp only [List.nil_append, List.cons.injEq] at hsplit
          rw [hm, hsplit.1]
        | cons p ps =>
          simp only [List.cons_append, List.cons.injEq] at hsplit
          have := hpre p (by simp)
          rw [hsplit.1] at h
          rw [this] at h
          exact absurd h (by simp)
    · simp only [findSymbol, if_neg h, ih]
      constructor
      · rintro ⟨pre, e, post, hsplit, hmat, hm, hpre⟩
        refine ⟨a :: pre, e, post, by simp [hsplit], hmat, hm, ?_⟩
        intro x hx
        rcases List.mem_cons.mp hx with hx | hx
        · subst hx
          exact Bool.eq_false_iff.mpr h
        · exact hpre x hx
      · rintro ⟨pre, e, post, hsplit, hmat, hm, hpre⟩
        cases pre with
        | nil =>
          simp only [List.nil_append, List.cons.injEq] at hsplit
          rw [← hsplit.1] at hmat
          exact absurd hmat h
        | cons p ps =>
          simp only [List.cons_append, List.cons.injEq] at hsplit
          refine ⟨ps, e, post, hsplit.2, hmat, hm, ?_⟩
          intro x hx
          exact hpre x (List.mem_cons.mpr (Or.inr hx))

/-- C5: for every symbol table and logical name, `findSymbol` returns the
linkable name of the first entry in insertion order whose demangled form
equals the name exactly or starts with the name followed by `(`, and `none`
when no entry matches; `lookupFunction` applies this resolver first and only
on no-match falls back to looking the logical name up directly. -/
theorem findSymbol_first_match_and_fallback (syms : List SymbolEntry)
    (name : Bytes) (look : Bytes → Option Nat) :
    (∀ m, findSymbol syms name = some m ↔
      ∃ pre e post, syms = pre ++ e :: post ∧ matchesSpec name e ∧
        m = e.mangled ∧ ∀ x ∈ pre, ¬ matchesSpec name x) ∧
    (findSymbol syms name = none ↔ ∀ e ∈ syms, ¬ matchesSpec name e) ∧
    ((∀ e ∈ syms, ¬ matchesSpec name e) →
      lookupFunction syms look name = look name) ∧
    (∀ pre e post, syms = pre ++ e :: post → matchesSpec name e →
      (∀ x ∈ pre, ¬ matchesSpec name x) →
      lookupFunction syms look name = look e.mangled) := by
  have hnone : findSymbol syms name = none ↔ ∀ e ∈ syms, ¬ matchesSpec name e := by
    rw [findSymbol_none_iff]
    constructor
    · intro hall e he hm
      have h1 := hall e he
      have h2 := (symMatches_iff name e).mpr hm
      rw [h1] at h2
      exact Bool.false_ne_true h2
    · intro hall e he
      cases hb : symMatches name e with
      | false => rfl
      | true => exact absurd ((symMatches_iff name e).mp hb) (hall e he)
  refine ⟨?_, hnone, ?_, ?_⟩
  · intro m
    rw [findSymbol_some_iff]
    constructor
    · rintro ⟨pre, e, post, hsplit, hmat, hm, hpre⟩
      refine ⟨pre, e, post, hsplit, (symMatches_iff name e).mp hmat, hm, ?_⟩
      intro x hx hmx
      have h1 := hpre x hx
      have h2 := (symMatches_iff name x).mpr hmx
      rw [h1] at h2
      exact Bool.false_ne_true h2
    · rintro ⟨pre, e, post, hsplit, hmat, hm, hpre⟩
      refine ⟨pre, e, post, hsplit, (symMatches_iff name e).mpr hmat, hm, ?_⟩
      intro x hx
      cases hb : symMatches name x with
      | false => rfl
      | true => exact absurd ((symMatches_iff name x).mp hb) (hpre x hx)
  · intro hall
    unfold lookupFunction
    rw [hnone.mpr hall]
  · intro pre e post hsplit hmat hpre
    unfold lookupFunction
    have hfind : findSymbol syms name = some e.mangled := by
      rw [findSymbol_some_iff]
      refine ⟨pre, e, post, hsplit, (symMatches_iff name e).mpr hmat, rfl, ?_⟩
      intro x hx
      cases hb : symMatches name x with
      | false => rfl
      | true => exact absurd ((symMatches_iff name x).mp hb) (hpre x hx)
    rw [hfind]

/-! ## Object cache key (`ClapJIT::getCachePath`, JIT.cc lines 354-369)

`getCachePath` builds `cacheDir / (filename + "." + to_string(hash) + ".o")`
where `hash = std::hash<std::string>{}(SourcePath)`.  On the code's target
platform (Linux x86_64, libstdc++ — the include-path probing in JIT.cc is
explicitly Linux/x86_64) `std::hash<std::string>` is `std::_Hash_bytes`,
the 64-bit MurmurHash-style mixer of libstdc++'s `hash_bytes.cc` with seed
`0xc70f6907`; `shiftMix`, `hashChunks` and `hashBytes` transcribe that
function, with `size_t` arithmetic as `Nat` reduced modulo `2 ^ 64`. -/

def hashMul : Nat := 0xc6a4a7935bd1e995

def w64 : Nat := 2 ^ 64

def shiftMix (v : Nat) : Nat := v ^^^ (v >>> 47)

/-- Little-endian value of a byte list (`unaligned_load` / `load_bytes`). -/
def loadLE (bs : Bytes) : Nat := bs.foldr (fun b acc => acc * 256 + b) 0

/-- The block loop of `_Hash_bytes`: consume 8-byte blocks while at least 8
bytes remain, then mix in the remaining 1-7 bytes if any. -/
def hashChunks : Nat → Bytes → Nat
  | h, b0 :: b1 :: b2 :: b3 :: b4 :: b5 :: b6 :: b7 :: rest =>
      let data := (shiftMix (loadLE [b0, b1, b2, b3, b4, b5, b6, b7] * hashMul % w64)
        * hashMul) % w64
      hashChunks ((h ^^^ data) * hashMul % w64) rest
  | h, [] => h
  | h, bs => (h ^^^ loadLE bs) * hashMul % w64

def hashBytes (seed : Nat) (bs : Bytes) : Nat :=
  let h0 := seed ^^^ (bs.length * hashMul % w64)
  shiftMix ((shiftMix (hashChunks h0 bs) * hashMul) % w64)

/-- `std::hash<std::string>` on the target platform: `_Hash_bytes` with the
default seed `0xc70f6907`. -/
def stdHashBytes (bs : Bytes) : Nat := hashBytes 0xc70f6907 bs

/-- `std::filesystem::path::filename()`: the component after the last
path separator (byte 47 is the character `/`). -/
def pathFilename (p : Bytes) : Bytes :=
  (p.reverse.takeWhile (fun b => b != 47)).reverse

/-- Decimal rendering of a `Nat` as its ASCII byte string, the effect of
`std::to_string(hash)`.  A structurally recursive fuel formulation is used
so the kernel can evaluate it; the fuel (one unit per digit) never runs out
because a number needs at most `n` digits. -/
def natDecimalAux : Nat → Nat → Bytes → Bytes
  | 0, _, acc => acc
  | _, 0, acc => acc
  | fuel + 1, n, acc => natDecimalAux fuel (n / 10) ((48 + n % 10) :: acc)

def natDecimal (n : Nat) : Bytes := if n = 0 then [48] else natDecimalAux n n []

/-- `ClapJIT::getCachePath`: empty when no cache directory is configured,
otherwise `cacheDir / (filename(source) + "." + to_string(hash(source)) +
".o")` — bytes 46 and 111 are `.` and `o`. -/
def getCachePath (cacheDir : Bytes) (sourcePath : Bytes) : Bytes :=
  if cacheDir = [] then []
  else cacheDir ++ 47 ::
    (pathFilename sourcePath ++ 46 ::
      (natDecimal (stdHashBytes sourcePath) ++ [46, 111]))

/-- First colliding path: the bytes of `dirAAAAAdirCCCCC/same.cc`. -/
def collidePathA : Bytes :=
  [100, 105, 114, 65, 65, 65, 65, 65, 100, 105, 114, 67, 67, 67, 67, 67,
   47, 115, 97, 109, 101, 46, 99, 99]

/-- Second colliding path: `dirBBBBB`, then eight bytes chosen (by
inverting the bijective per-block mixer of `_Hash_bytes`) to cancel the
hash difference, then `/same.cc` — a different directory prefix, the same
filename, the same 64-bit path hash. -/
def collidePathB : Bytes :=
  [100, 105, 114, 66, 66, 66, 66, 66, 113, 254, 13, 192, 42, 237, 80, 183,
   47, 115, 97, 109, 101, 46, 99, 99]

example : stdHashBytes collidePathA = 9767006619588592165 := by decide

example : stdHashBytes collidePathB = 9767006619588592165 := by decide

/-- Value of a decimal digit byte string (48 is the byte of `0`). -/
def digitsVal : Bytes → Nat
  | [] => 0
  | b :: bs => (b - 48) * 10 ^ bs.length + digitsVal bs

theorem digitsVal_natDecimalAux (fuel : Nat) :
    ∀ n acc, n ≤ fuel →
      digitsVal (natDecimalAux fuel n acc) = n * 10 ^ acc.length + digitsVal acc := by
  induction fuel with
  | zero =>
    intro n acc hn
    have hn0 : n = 0 := Nat.le_zero.mp hn
    subst hn0
    simp [natDecimalAux]
  | succ f ih =>
    intro n acc hn
    match n with
    | 0 => simp [natDecimalAux]
    | m + 1 =>
      rw [natDecimalAux]
      have hdiv : (m + 1) / 10 ≤ f := by
        have h1 : (m + 1) / 10 < m + 1 := Nat.div_lt_self (Nat.succ_pos m) (by norm_num)
        omega
      rw [ih ((m + 1) / 10) ((48 + (m + 1) % 10) :: acc) hdiv]
      have hqr := Nat.div_add_mod (m + 1) 10
      have hmod : (m + 1) % 10 < 10 := Nat.mod_lt _ (by norm_num)
      simp only [digitsVal, List.length_cons, pow_succ]
      have h48 : 48 + (m + 1) % 10 - 48 = (m + 1) % 10 := by omega
      rw [h48]
      generalize 10 ^ acc.length = k
      generalize hq : (m + 1) / 10 = q at hqr
      generalize hr : (m + 1) % 10 = r at hqr
      calc q * (k * 10) + (r * k + digitsVal acc)
          = (10 * q + r) * k + digitsVal acc := by ring
        _ = (m + 1) * k + digitsVal acc := by rw [hqr]
      exact Nat.succ_ne_zero m

theorem digitsVal_natDecimal (n : Nat) : digitsVal (natDecimal n) = n := by
  unfold natDecimal
  by_cases h : n = 0
  · simp [h, digitsVal]
  · rw [if_neg h, digitsVal_natDecimalAux n n [] (le_refl n)]
    simp [digitsVal]

theorem natDecimal_inj (a b : Nat) (h : natDecimal a = natDecimal b) : a = b := by
  have ha := digitsVal_natDecimal a
  have hb := digitsVal_natDecimal b
  rw [h] at ha
  rw [hb] at ha
  exact ha.symm

theorem natDecimalAux_mem (fuel : Nat) :
    ∀ n acc b, b ∈ natDecimalAux fuel n acc → b ∈ acc ∨ (48 ≤ b ∧ b ≤ 57) := by
  induction fuel with
  | zero =>
    intro n acc b hb
    cases n <;> simp [natDecimalAux] at hb <;> exact Or.inl hb
  | succ f ih =>
    intro n acc b hb
    match n with
    | 0 =>
      simp [natDecimalAux] at hb
      exact Or.inl hb
    | m + 1 =>
      rw [natDecimalAux] at hb
      case x_3 => exact Nat.succ_ne_zero m
      rcases ih ((m + 1) / 10) ((48 + (m + 1) % 10) :: acc) b hb with hin | hrange
      · rcases List.mem_cons.mp hin with he | hin
        · right
          have : (m + 1) % 10 < 10 := Nat.mod_lt _ (by norm_num)
          omega
        · exact Or.inl hin
      · exact Or.inr hrange

theorem natDecimal_mem (n b : Nat) (hb : b ∈ natDecimal n) : 48 ≤ b ∧ b ≤ 57 := by
  unfold natDecimal at hb
  by_cases h : n = 0
  · rw [if_pos h] at hb
    simp at hb
    omega
  · rw [if_neg h] at hb
    rcases natDecimalAux_mem n n [] b hb with hin | hrange
    · simp at hin
    · exact hrange

theorem takeWhile_append_cons (p : Nat → Bool) (l₁ : Bytes) (x : Nat) (l₂ : Bytes)
    (h₁ : ∀ a ∈ l₁, p a = true) (hx : p x = false) :
    (l₁ ++ x :: l₂).takeWhile p = l₁ := by
  induction l₁ with
  | nil => simp [List.takeWhile, hx]
  | cons a as ih =>
    have ha : p a = true := h₁ a (by simp)
    simp only [List.cons_append, List.takeWhile, ha, List.append_eq]
    rw [ih (fun a ha => h₁ a (by simp [ha]))]

/-- The decimal-digit segment of a cache key: the bytes strictly between the
final `.o` suffix and the preceding `.` separator. -/
def tailDigits (l : Bytes) : Bytes :=
  ((l.reverse.drop 2).takeWhile (fun b => b != 46)).reverse

theorem tailDigits_eq (fname d : Bytes) (hd : ∀ b ∈ d, b ≠ 46) :
    tailDigits (fname ++ 46 :: (d ++ [46, 111])) = d := by
  unfold tailDigits
  have hrev : (fname ++ 46 :: (d ++ [46, 111])).reverse
      = 111 :: 46 :: (d.reverse ++ 46 :: fname.reverse) := by
    simp [List.reverse_append]
  rw [hrev]
  simp only [List.drop_succ_cons, List.drop_zero]
  rw [takeWhile_append_cons _ d.reverse 46 fname.reverse
    (fun a ha => by
      have : a ≠ 46 := hd a (List.mem_reverse.mp ha)
      simp [this])
    (by simp)]
  exact List.reverse_reverse d

/-- C8 counterexample: two distinct source paths — different directories,
the same filename `same.cc`, and (by construction) the same 64-bit
`std::hash` value — receive the identical cache key, so the claim that
every pair of distinct source paths gets distinct cache keys is false. -/
theorem getCachePath_collision :
    collidePathA ≠ collidePathB ∧
    getCachePath (bytes ("cache")) collidePathA
      = getCachePath (bytes ("cache")) collidePathB := by
  constructor
  · decide
  · decide

/-- C8 amended: the cache key is a deterministic function of the source
path (it is a pure function of it), and two source paths can share a cache
key only when both their filenames and their 64-bit path hashes coincide —
in particular, paths with distinct hashes never share a cache slot, and
same-named files in different directories are separated whenever their
hashes differ (which a 64-bit hash cannot guarantee for every pair). -/
theorem getCachePath_eq_iff_filename_and_hash (cacheDir p q : Bytes)
    (hdir : cacheDir ≠ [])
    (hkey : getCachePath cacheDir p = getCachePath cacheDir q) :
    stdHashBytes p = stdHashBytes q ∧ pathFilename p = pathFilename q := by
  unfold getCachePath at hkey
  rw [if_neg hdir, if_neg hdir] at hkey
  have h1 := List.append_cancel_left hkey
  have h2 : pathFilename p ++ 46 :: (natDecimal (stdHashBytes p) ++ [46, 111])
      = pathFilename q ++ 46 :: (natDecimal (stdHashBytes q) ++ [46, 111]) := by
    injection h1
  have hdp : ∀ b ∈ natDecimal (stdHashBytes p), b ≠ 46 := by
    intro b hb
    have := natDecimal_mem _ b hb
    omega
  have hdq : ∀ b ∈ natDecimal (stdHashBytes q), b ≠ 46 := by
    intro b hb
    have := natDecimal_mem _ b hb
    omega
  have htp := tailDigits_eq (pathFilename p) (natDecimal (stdHashBytes p)) hdp
  have htq := tailDigits_eq (pathFilename q) (natDecimal (stdHashBytes q)) hdq
  have hdig : natDecimal (stdHashBytes p) = natDecimal (stdHashBytes q) := by
    rw [← htp, ← htq, h2]
  have hhash : stdHashBytes p = stdHashBytes q := natDecimal_inj _ _ hdig
  refine ⟨hhash, ?_⟩
  rw [hdig] at h2
  exact List.append_cancel_right h2

/-- Witness for the amended C8 theorem at a concrete input: the two
colliding paths share a cache key, and the theorem applied to them yields
equal hashes and equal filenames. -/
theorem getCachePath_eq_iff_filename_and_hash_witness :
    stdHashBytes collidePathA = stdHashBytes collidePathB ∧
      pathFilename collidePathA = pathFilename collidePathB :=
  getCachePath_eq_iff_filename_and_hash (bytes ("cache")) collidePathA
    collidePathB (by decide) (by decide)

/-! ## Errors (`src/jit/Error.h`)

`ErrorCode` and `makeError` transcribe Error.h; `JitError.str` stands for a
plain `llvm::StringError` (used by `compileAndCache`, `loadCachedObject`
and link errors, which carry only a message). -/

inductive ErrorCode where
  | targetCreationFailed
  | compilationFailed
  | moduleGenerationFailed
  | symbolNotFound
  deriving DecidableEq, Repr

/-- `ClapErrorCategory().message` of Error.h. -/
def categoryMsg : ErrorCode → Bytes
  | .targetCreationFailed => bytes ("Failed to create target")
  | .compilationFailed => bytes ("Compilation failed")
  | .moduleGenerationFailed => bytes ("Failed to generate module")
  | .symbolNotFound => bytes ("Symbol not found")

/-- The full message `makeError` builds: the category message, then
`": " + message` when the message is non-empty, then `" [file: " + path +
"]"` when the path is non-empty. -/
def makeErrorMsg (code : ErrorCode) (msg file : Bytes) : Bytes :=
  let m := categoryMsg code
  let m := if msg = [] then m else m ++ bytes (": ") ++ msg
  if file = [] then m else m ++ bytes (" [file: ") ++ file ++ bytes ("]")

inductive JitError where
  | clap (code : ErrorCode) (msg : Bytes) (file : Bytes)
  | str (msg : Bytes)
  deriving DecidableEq, Repr

/-- The text `llvm::toString` yields for an error of our model. -/
def JitError.render : JitError → Bytes
  | .clap code msg file => makeErrorMsg code msg file
  | .str msg => msg

/-! ## Filesystem model

Paths map to modification times and contents; `lastWriteTime` models the
throwing overload of `std::filesystem::last_write_time` used by
`ClapJIT::isCacheValid` — on a path that cannot be stat'ed it does not
return, it raises `std::filesystem::filesystem_error`. -/

structure VFS where
  mtimes : List (Bytes × Nat)
  contents : List (Bytes × Bytes)
  deriving DecidableEq, Repr

def VFS.mtime (fs : VFS) (p : Bytes) : Option Nat :=
  (fs.mtimes.find? (fun e => e.1 == p)).map (fun e => e.2)

def VFS.fileContent (fs : VFS) (p : Bytes) : Option Bytes :=
  (fs.contents.find? (fun e => e.1 == p)).map (fun e => e.2)

/-- `std::filesystem::exists`. -/
def VFS.fsExists (fs : VFS) (p : Bytes) : Bool := (fs.mtime p).isSome

def VFS.writeFile (fs : VFS) (p data : Bytes) (t : Nat) : VFS :=
  ⟨(p, t) :: fs.mtimes, (p, data) :: fs.contents⟩

/-- The C++ exception escaping a failed stat. -/
inductive FsError where
  | statFailed (path : Bytes)
  deriving DecidableEq, Repr

def lastWriteTime (fs : VFS) (p : Bytes) : Except FsError Nat :=
  match fs.mtime p with
  | some t => .ok t
  | none => .error (.statFailed p)

/-- `ClapJIT::isCacheValid` (JIT.cc lines 371-386): false for an empty cache
path or a missing cache file; otherwise stat both files — with the
*throwing* `last_write_time` overload — and report
`cacheTime >= srcTime`. -/
def isCacheValid (fs : VFS) (src cache : Bytes) : Except FsError Bool :=
  if cache = [] then .ok false
  else if !(fs.fsExists cache) then .ok false
  else do
    let srcTime ← lastWriteTime fs src
    let cacheTime ← lastWriteTime fs cache
    .ok (decide (srcTime ≤ cacheTime))

/-! ## Sidecar symbol file

`addModule` writes one `demangled<TAB>mangled` pair per line (bytes 9 and
10 are TAB and LF) and, on a cache hit, reads the sidecar back with
`std::getline` plus `find('\t')`/`substr`. -/

def serializeSidecar (syms : List SymbolEntry) : Bytes :=
  syms.foldr (fun e acc => e.demangled ++ 9 :: (e.mangled ++ 10 :: acc)) []

/-- `std::getline` splitting: segments between LF bytes; a trailing LF does
not produce a final empty segment, a missing final LF still yields the
last partial segment. -/
def getlinesAux : Bytes → Bytes → List Bytes
  | cur, [] => [cur.reverse]
  | cur, b :: rest =>
      if b = 10 then
        match rest with
        | [] => [cur.reverse]
        | _ => cur.reverse :: getlinesAux [] rest
      else getlinesAux (b :: cur) rest

def getlines : Bytes → List Bytes
  | [] => []
  | bs => getlinesAux [] bs

/-- One sidecar line: `sep = line.find('\t')`; skipped when there is no
TAB, otherwise the pair `(line.substr(0, sep), line.substr(sep + 1))`. -/
def parseSidecarLine (line : Bytes) : Option SymbolEntry :=
  let pre := line.takeWhile (fun b => b != 9)
  if pre.length = line.length then none
  else some ⟨pre, line.drop (pre.length + 1)⟩

def parseSidecar (data : Bytes) : List SymbolEntry :=
  (getlines data).filterMap parseSidecarLine

/-! ## Compilation driver and `addModule` (JIT.cc lines 119-306)

The clang frontend, the demangler and the ORC session are external
collaborators; their outcomes for the one file being compiled are supplied
as an environment, and `compileSingleFile`/`addModule` reproduce the C++
control flow over those outcomes. -/

/-- Outcome of the embedded clang frontend for one source file, naming the
branch of `ClapJIT::compileSingleFile` it triggers. -/
inductive CompileOutcome where
  | driverNull
  | jobsBad
  | invocationFail (diag : Bytes)
  | diagFail
  | executeFail (diag : Bytes)
  | noModule
  | success (funcs : List (Bytes × Bool))
  deriving DecidableEq, Repr

/-- `ClapJIT::compileSingleFile`: every failure path builds a `makeError`
with kind `CompilationFailed` except the null module after a reported
success, which is the distinct `ModuleGenerationFailed`; on success the
module is the list of its functions as (mangled name, isDeclaration)
pairs. -/
def compileSingleFile (out : CompileOutcome) (file : Bytes) :
    Except JitError (List (Bytes × Bool)) :=
  match out with
  | .driverNull =>
      .error (.clap .compilationFailed (bytes ("Failed to create compilation")) file)
  | .jobsBad =>
      .error (.clap .compilationFailed (bytes ("Expected exactly one compile job")) file)
  | .invocationFail diag =>
      .error (.clap .compilationFailed
        (bytes ("Failed to create CompilerInvocation: ") ++ diag) file)
  | .diagFail =>
      .error (.clap .compilationFailed (bytes ("Failed to create diagnostics")) file)
  | .executeFail diag =>
      .error (.clap .compilationFailed
        (if diag = [] then bytes ("Compilation failed")
         else bytes ("Compilation failed: ") ++ diag) file)
  | .noModule =>
      .error (.clap .moduleGenerationFailed
        (bytes ("No module generated after compilation")) file)
  | .success funcs => .ok funcs

/-- External outcomes consulted by one `addModule` call. -/
structure AddEnv where
  compile : CompileOutcome
  demangle : Bytes → Bytes
  cacheWriteErr : Option Bytes
  objectCode : Bytes
  linkIRErr : Option Bytes
  linkObjErr : Option Bytes
  now : Nat

/-- The `ClapJIT` state an `addModule` call reads and writes: the options'
cache directory, the accumulated `symbols_`, the filesystem, and the units
linked into the execution session (IR modules and cached objects). -/
structure JitState where
  cacheDir : Bytes
  symbols : List SymbolEntry
  fs : VFS
  linkedIR : List Bytes
  linkedObj : List Bytes
  deriving Repr

/-- The defined (non-declaration) symbols of a compiled module, demangled
into `SymbolEntry` pairs exactly as the collection loop of `addModule`
does. -/
def collectSymbols (dm : Bytes → Bytes) (funcs : List (Bytes × Bool)) :
    List SymbolEntry :=
  (funcs.filter (fun f => !f.2)).map (fun f => ⟨dm f.1, f.1⟩)

/-- The compile branch of `addModule`: compile, collect and append symbols,
then (when caching is enabled) try to persist object and sidecar — a cache
write failure is consumed by `llvm::consumeError`, nothing is logged and
nothing is written — and finally link the in-memory module. -/
def addModuleCompile (env : AddEnv) (st : JitState) (file cachePath symPath : Bytes) :
    JitState × Option JitError :=
  match compileSingleFile env.compile file with
  | .error e => (st, some e)
  | .ok funcs =>
    let newSymbols := collectSymbols env.demangle funcs
    let st1 := { st with symbols := st.symbols ++ newSymbols }
    let st2 :=
      if cachePath = [] then st1
      else
        match env.cacheWriteErr with
        | some _ => st1
        | none =>
          let fs1 := st1.fs.writeFile cachePath env.objectCode env.now
          let fs2 := fs1.writeFile symPath (serializeSidecar newSymbols) env.now
          { st1 with fs := fs2 }
    match env.linkIRErr with
    | some m => (st2, some (.str m))
    | none => ({ st2 with linkedIR := st2.linkedIR ++ [file] }, none)

/-- `ClapJIT::addModule` (JIT.cc lines 249-306).  The outer `Except` is a
C++ exception escaping the call (the throwing stat inside
`isCacheValid`); the inner `Option JitError` is the `llvm::Error` the
function returns. -/
def addModule (env : AddEnv) (st : JitState) (file : Bytes) :
    Except FsError (JitState × Option JitError) :=
  let cachePath := getCachePath st.cacheDir file
  let symPath := if cachePath = [] then [] else cachePath ++ bytes (".sym")
  match isCacheValid st.fs file cachePath with
  | .error e => .error e
  | .ok valid =>
    if valid then
      match st.fs.fileContent symPath with
      | some data =>
          let st1 := { st with symbols := st.symbols ++ parseSidecar data }
          match st1.fs.fileContent cachePath with
          | none => .ok (st1, some (.str (bytes ("Failed to load cached object"))))
          | some _ =>
            match env.linkObjErr with
            | some m => .ok (st1, some (.str m))
            | none => .ok ({ st1 with linkedObj := st1.linkedObj ++ [cachePath] }, none)
      | none => .ok (addModuleCompile env st file cachePath symPath)
    else .ok (addModuleCompile env st file cachePath symPath)

/-! ## Claims about the cache and addModule -/

def c4SrcPath : Bytes := bytes ("dsp.cc")

def c4CachePath : Bytes := getCachePath (bytes ("cache")) c4SrcPath

/-- A state in which the cache object for `dsp.cc` exists but the source
itself cannot be stat'ed (it was deleted after being cached). -/
def c4State : JitState :=
  { cacheDir := bytes ("cache"), symbols := [],
    fs := ⟨[(c4CachePath, 5)], [(c4CachePath, bytes ("OBJ"))]⟩,
    linkedIR := [], linkedObj := [] }

def c4Env : AddEnv :=
  { compile := .success [(bytes ("p"), false)], demangle := id,
    cacheWriteErr := none, objectCode := [], linkIRErr := none,
    linkObjErr := none, now := 9 }

/-- C4: evaluating the code at the failing input — a source file that
cannot be stat'ed while its cached object exists.  `isCacheValid` calls the
throwing overload of `last_write_time`, so the filesystem error surfaces as
an exception escaping `addModule` instead of being treated as a cache
miss. -/
theorem addModule_exception_on_missing_source :
    addModule c4Env c4State c4SrcPath = .error (.statFailed c4SrcPath) := by
  rfl

def c6State : JitState :=
  { cacheDir := [], symbols := [], fs := ⟨[], []⟩, linkedIR := [],
    linkedObj := [] }

def c6Env : AddEnv :=
  { compile := .success [], demangle := id, cacheWriteErr := none,
    objectCode := [], linkIRErr := none, linkObjErr := none, now := 0 }

/-- C6 counterexample: a compilation the frontend reports as successful but
that produces zero defined symbols yields NO error at all from `addModule`:
the empty unit is linked, no symbol is registered and the returned
`llvm::Error` is `none` — there is no distinct empty-output error kind for
this case. -/
theorem addModule_zero_definitions_no_error :
    addModule c6Env c6State (bytes ("empty.cc"))
      = .ok ({ c6State with linkedIR := [bytes ("empty.cc")] }, none) := by
  rfl

theorem isCacheValid_no_cache (fs : VFS) (src cache : Bytes)
    (h : fs.mtime cache = none) : isCacheValid fs src cache = .ok false := by
  unfold isCacheValid
  by_cases hc : cache = []
  · rw [if_pos hc]
  · rw [if_neg hc]
    simp [VFS.fsExists, h]

/-- An environment whose only interesting outcome is the frontend's. -/
def pureEnv (out : CompileOutcome) (dm : Bytes → Bytes) : AddEnv :=
  { compile := out, demangle := dm, cacheWriteErr := none, objectCode := [],
    linkIRErr := none, linkObjErr := none, now := 0 }

/-- C6 amended: the distinct `ModuleGenerationFailed` kind arises when the
frontend reports success but yields no module object; a module with zero
defined symbols is not an error — `addModule` links it successfully,
registers no symbols and returns no error; and the error kinds
target-construction failure, frontend failure and module-generation
failure are pairwise distinct. -/
theorem addModule_error_kinds (st : JitState) (file : Bytes)
    (dm : Bytes → Bytes) (hcd : st.cacheDir = []) :
    (addModule (pureEnv .noModule dm) st file
      = .ok (st, some (.clap .moduleGenerationFailed
          (bytes ("No module generated after compilation")) file))) ∧
    (∀ funcs, funcs.filter (fun f => !f.2) = [] →
      addModule (pureEnv (.success funcs) dm) st file
        = .ok ({ st with linkedIR := st.linkedIR ++ [file] }, none)) ∧
    ([ErrorCode.targetCreationFailed, .compilationFailed,
      .moduleGenerationFailed, .symbolNotFound].Pairwise (· ≠ ·)) := by
  have hcp : getCachePath st.cacheDir file = [] := by
    rw [hcd]
    rfl
  refine ⟨?_, ?_, by decide⟩
  · unfold addModule
    rw [hcp]
    rfl
  · intro funcs hf
    unfold addModule
    rw [hcp]
    simp only [addModuleCompile, pureEnv, compileSingleFile, collectSymbols, hf,
      List.map_nil, List.append_nil, if_pos rfl]
    rfl

/-- Witness for the amended C6 theorem: the cacheless state `c6State` with
the identity demangler and an empty unit. -/
theorem addModule_error_kinds_witness :
    (addModule (pureEnv .noModule id) c6State (bytes ("e.cc"))
      = .ok (c6State, some (.clap .moduleGenerationFailed
          (bytes ("No module generated after compilation")) (bytes ("e.cc"))))) ∧
    (∀ funcs, funcs.filter (fun f => !f.2) = [] →
      addModule (pureEnv (.success funcs) id) c6State (bytes ("e.cc"))
        = .ok ({ c6State with linkedIR := c6State.linkedIR ++ [bytes ("e.cc")] },
            none)) ∧
    ([ErrorCode.targetCreationFailed, .compilationFailed,
      .moduleGenerationFailed, .symbolNotFound].Pairwise (· ≠ ·)) :=
  addModule_error_kinds c6State (bytes ("e.cc")) id rfl

theorem getlines_ne_nil (bs : Bytes) (h : bs ≠ []) :
    getlines bs = getlinesAux [] bs := by
  cases bs with
  | nil => exact absurd rfl h
  | cons a rest => rfl

theorem getlinesAux_split (seg : Bytes) :
    ∀ cur rest, 10 ∉ seg →
      getlinesAux cur (seg ++ 10 :: rest)
        = (cur.reverse ++ seg) :: getlines rest := by
  induction seg with
  | nil =>
    intro cur rest _
    cases rest with
    | nil => simp [getlinesAux, getlines]
    | cons r rs => simp [getlinesAux, getlines]
  | cons b bs ih =>
    intro cur rest hmem
    have hb : b ≠ 10 := by
      intro hb
      exact hmem (by rw [hb]; exact List.mem_cons_self _ _)
    have hbs : 10 ∉ bs := fun h => hmem (List.mem_cons_of_mem _ h)
    simp only [List.cons_append, getlinesAux, if_neg hb, List.append_eq]
    rw [ih (b :: cur) rest hbs]
    simp

theorem parseSidecarLine_pair (dem man : Bytes) (h9 : 9 ∉ dem) :
    parseSidecarLine (dem ++ 9 :: man) = some ⟨dem, man⟩ := by
  unfold parseSidecarLine
  have hpre : (dem ++ 9 :: man).takeWhile (fun b => b != 9) = dem :=
    takeWhile_append_cons _ dem 9 man
      (fun a ha => by
        have : a ≠ 9 := fun h => h9 (h ▸ ha)
        simp [this])
      (by simp)
  rw [hpre]
  have hlen : dem.length ≠ (dem ++ 9 :: man).length := by
    simp only [List.length_append, List.length_cons]
    omega
  rw [if_neg hlen]
  have hdrop : (dem ++ 9 :: man).drop (dem.length + 1) = man := by
    have : dem ++ 9 :: man = (dem ++ [9]) ++ man := by simp
    rw [this]
    have hl : (dem ++ [9]).length = dem.length + 1 := by simp
    rw [← hl]
    exact List.drop_left _ _
  rw [hdrop]

theorem sidecar_roundtrip (ps : List SymbolEntry)
    (hok : ∀ e ∈ ps, 9 ∉ e.demangled ∧ 10 ∉ e.demangled ∧
      9 ∉ e.mangled ∧ 10 ∉ e.mangled) :
    parseSidecar (serializeSidecar ps) = ps := by
  induction ps with
  | nil => rfl
  | cons e rest ih =>
    obtain ⟨h9d, h10d, h9m, h10m⟩ := hok e (by simp)
    have hser : serializeSidecar (e :: rest)
        = (e.demangled ++ 9 :: e.mangled) ++ 10 :: serializeSidecar rest := by
      simp [serializeSidecar]
    have hseg : (10 : Nat) ∉ e.demangled ++ 9 :: e.mangled := by
      intro h
      rcases List.mem_append.mp h with h | h
      · exact h10d h
      · rcases List.mem_cons.mp h with h | h
        · exact absurd h (by norm_num)
        · exact h10m h
    unfold parseSidecar
    rw [hser, getlines_ne_nil _ (by simp),
      getlinesAux_split _ [] (serializeSidecar rest) hseg]
    simp only [List.reverse_nil, List.nil_append, List.filterMap_cons,
      parseSidecarLine_pair e.demangled e.mangled h9d]
    have hrest : (getlines (serializeSidecar rest)).filterMap parseSidecarLine
        = rest := ih (fun x hx => hok x (List.mem_cons_of_mem _ hx))
    rw [hrest]

def c9State : JitState :=
  { cacheDir := bytes ("cache"), symbols := [], fs := ⟨[], []⟩,
    linkedIR := [], linkedObj := [] }

def c9Env : AddEnv :=
  { compile := .success [(bytes ("g"), false)], demangle := id,
    cacheWriteErr := some (bytes ("disk full")), objectCode := bytes ("OBJ"),
    linkIRErr := none, linkObjErr := none, now := 7 }

/-- C9 counterexample: on a cache write failure `addModule` discards the
error with `llvm::consumeError` — it is NOT logged.  The call still
succeeds and links the freshly compiled unit, but the returned state's
filesystem is exactly the input filesystem: no log line, no sidecar,
nothing is written anywhere, refuting the claim that the failure is
logged. -/
theorem cache_write_failure_silent :
    addModule c9Env c9State (bytes ("g.cc"))
      = .ok ({ c9State with
          symbols := [⟨bytes ("g"), bytes ("g")⟩],
          linkedIR := [bytes ("g.cc")] }, none) := by
  rfl

/-- C9 amended: a cache write failure is silently discarded (not logged)
and is non-fatal — the freshly compiled in-memory unit is still linked and
used and the filesystem is left untouched; and the sidecar round-trips:
serializing any symbol list whose names contain no TAB or LF bytes and
parsing it back recovers exactly the same entries in the same order. -/
theorem cache_write_nonfatal_and_sidecar_roundtrip
    (env : AddEnv) (st : JitState) (file m : Bytes)
    (funcs : List (Bytes × Bool)) (ps : List SymbolEntry)
    (hw : env.cacheWriteErr = some m)
    (hc : env.compile = .success funcs)
    (hl : env.linkIRErr = none)
    (hnc : st.fs.mtime (getCachePath st.cacheDir file) = none)
    (hok : ∀ e ∈ ps, 9 ∉ e.demangled ∧ 10 ∉ e.demangled ∧
      9 ∉ e.mangled ∧ 10 ∉ e.mangled) :
    addModule env st file
      = .ok ({ st with
          symbols := st.symbols ++ collectSymbols env.demangle funcs,
          linkedIR := st.linkedIR ++ [file] }, none)
    ∧ parseSidecar (serializeSidecar ps) = ps := by
  refine ⟨?_, sidecar_roundtrip ps hok⟩
  have hval := isCacheValid_no_cache st.fs file (getCachePath st.cacheDir file) hnc
  by_cases hcp : getCachePath st.cacheDir file = []
  · have hval2 : isCacheValid st.fs file ([] : Bytes) = .ok false := rfl
    simp [addModule, hcp, hval2, addModuleCompile, hc, compileSingleFile, hw, hl]
  · simp [addModule, hval, hcp, addModuleCompile, hc, compileSingleFile, hw, hl]

/-- Witness for the amended C9 theorem: the concrete cache-write-failure
environment `c9Env` and a one-entry sidecar list. -/
theorem cache_write_nonfatal_witness :
    (addModule c9Env c9State (bytes ("g.cc"))
      = .ok ({ c9State with
          symbols := c9State.symbols
            ++ collectSymbols c9Env.demangle [(bytes ("g"), false)],
          linkedIR := c9State.linkedIR ++ [bytes ("g.cc")] }, none))
    ∧ parseSidecar (serializeSidecar
        [⟨bytes ("f(int)"), bytes ("_Z1fi")⟩])
      = [⟨bytes ("f(int)"), bytes ("_Z1fi")⟩] :=
  cache_write_nonfatal_and_sidecar_roundtrip c9Env c9State (bytes ("g.cc"))
    (bytes ("disk full")) [(bytes ("g"), false)]
    [⟨bytes ("f(int)"), bytes ("_Z1fi")⟩] rfl rfl rfl rfl (by decide)

/-! ## Plugin layer (`src/plugin/clap_plugin.cc`)

Function pointers and JIT instances are modelled as opaque ids
(`Option Nat`, `none` = null); `float`/`double` values are only moved
around, never computed with, so they are modelled as rationals. -/

/-- The per-parameter record `ParamInfo` of clap_plugin.cc. -/
structure ParamInfo where
  name : Bytes
  min_value : ℚ
  max_value : ℚ
  default_value : ℚ
  deriving DecidableEq, Repr

/-- The global 16-float array `g_params`, modelled as unrestricted memory
indexed by `Nat` so that out-of-bounds writes are expressible (the claims
assert they do not happen). -/
abbrev GParams := Nat → ℚ

/-- The fields of `PluginState` the engine core reads and writes. -/
structure PState where
  jit : Option Nat
  process_fn : Option Nat
  reload_pending : Bool
  pending_fn : Option Nat
  pending_jit : Option Nat
  pending_init : Option Nat
  pending_destroy : Option Nat
  dsp_init : Option Nat
  dsp_destroy : Option Nat
  sample_rate : ℚ
  min_frames : Nat
  max_frames : Nat
  dsp_activated : Bool
  param_info : List ParamInfo
  gui_params : List ℚ
  last_error : Bytes
  compile_success : Bool
  last_modified : Option Nat
  deriving DecidableEq, Repr

/-- The `CompileResult` of clap_plugin.cc: the fresh JIT, the resolved
entry points (ids), the optional parameter-query exports — `param_count`
is called at most once so it is modelled by the value it returns — and
the diagnostic text. -/
structure CompileResult where
  jit : Option Nat
  process_fn : Option Nat
  init_fn : Option Nat
  destroy_fn : Option Nat
  param_count : Option Int
  param_name : Option (Nat → Bytes)
  param_min : Option (Nat → ℚ)
  param_max : Option (Nat → ℚ)
  param_default : Option (Nat → ℚ)
  error : Bytes

/-- `CompileResult::success()`: the process function pointer is non-null. -/
def CompileResult.success (r : CompileResult) : Bool := r.process_fn.isSome

/-- External outcomes consulted by one `compile_dsp` call, in the order the
code consults them: `ClapJIT::create`, `defineSymbol("g_params")`, the
`addModule` loop over lib/ sources, `addModule` on the DSP file, and the
symbol lookups (the optional ones are `none` when absent, their lookup
errors being consumed). -/
structure DspEnv where
  jitId : Nat
  jitCreateErr : Option Bytes
  defineErr : Option Bytes
  libErrs : List (Option JitError)
  mainErr : Option JitError
  processLookup : Except Bytes Nat
  initLookup : Option Nat
  destroyLookup : Option Nat
  paramCountFn : Option Int
  paramNameFn : Option (Nat → Bytes)
  paramMinFn : Option (Nat → ℚ)
  paramMaxFn : Option (Nat → ℚ)
  paramDefaultFn : Option (Nat → ℚ)

/-- First error of the lib/ compile loop, in order. -/
def firstLibErr : List (Option JitError) → Option JitError
  | [] => none
  | some e :: _ => some e
  | none :: rest => firstLibErr rest

/-- A `CompileResult` after a failure: `result.jit.reset()` has run (or the
JIT was never created), every entry point is null and only the error text
is set. -/
def emptyResult (err : Bytes) : CompileResult :=
  { jit := none, process_fn := none, init_fn := none, destroy_fn := none,
    param_count := none, param_name := none, param_min := none,
    param_max := none, param_default := none, error := err }

/-- `compile_dsp` (clap_plugin.cc lines 164-283): each failing step logs,
resets the JIT and returns early with the rendered diagnostic; on success
the result owns the fresh JIT, the required `process` address and the
optional lifecycle/parameter exports. -/
def compile_dsp (env : DspEnv) : CompileResult :=
  match env.jitCreateErr with
  | some msg => emptyResult msg
  | none =>
    match env.defineErr with
    | some msg => emptyResult msg
    | none =>
      match firstLibErr env.libErrs with
      | some e => emptyResult e.render
      | none =>
        match env.mainErr with
        | some e => emptyResult e.render
        | none =>
          match env.processLookup with
          | .error msg => emptyResult msg
          | .ok addr =>
            { jit := some env.jitId, process_fn := some addr,
              init_fn := env.initLookup, destroy_fn := env.destroyLookup,
              param_count := env.paramCountFn, param_name := env.paramNameFn,
              param_min := env.paramMinFn, param_max := env.paramMaxFn,
              param_default := env.paramDefaultFn, error := [] }

/-- One iteration of the parameter loop of `query_dsp_params`: build the
`ParamInfo` from the optional exports (with the defaults of the code),
push it onto the state's vectors and write the default into
`g_params[i]`. -/
def queryStep (r : CompileResult) (acc : PState × GParams) (i : Nat) :
    PState × GParams :=
  let info : ParamInfo :=
    { name := match r.param_name with | some f => f i | none => bytes ("Param"),
      min_value := match r.param_min with | some f => f i | none => 0,
      max_value := match r.param_max with | some f => f i | none => 1,
      default_value := match r.param_default with | some f => f i | none => 1 / 2 }
  let st1 := { acc.1 with
    param_info := acc.1.param_info ++ [info],
    gui_params := acc.1.gui_params ++ [info.default_value] }
  (st1, fun j => if j = i then info.default_value else acc.2 j)

/-- `query_dsp_params` (clap_plugin.cc lines 286-314): clear both parameter
vectors; without a `param_count` export register nothing; otherwise run the
loop `for (i = 0; i < count && i < 16; ++i)` — `min count.toNat 16`
iterations (an `Int.toNat` of a negative count is 0, exactly as the loop
guard gives zero iterations for a negative count). -/
def query_dsp_params (r : CompileResult) (st : PState) (g : GParams) :
    PState × GParams :=
  let st0 := { st with param_info := [], gui_params := [] }
  match r.param_count with
  | none => (st0, g)
  | some count =>
      (List.range (min count.toNat 16)).foldl (queryStep r) (st0, g)

/-- `do_recompile` (clap_plugin.cc lines 319-357): clear the GUI status; on
a failing compile record the diagnostic and return; on success stage the
pending binding, query the parameter metadata, report whether the host
must rescan, publish the swap flag and reset the file watcher. -/
def do_recompile (env : DspEnv) (st : PState) (g : GParams) :
    PState × GParams × Bool :=
  let st0 := { st with last_error := [], compile_success := false }
  let r := compile_dsp env
  if r.success then
    let st1 := { st0 with
      pending_fn := r.process_fn, pending_init := r.init_fn,
      pending_destroy := r.destroy_fn, pending_jit := r.jit }
    let old_count := st1.param_info.length
    let q := query_dsp_params r st1 g
    let rescan := decide (q.1.param_info.length ≠ old_count)
    let st3 := { q.1 with
      reload_pending := true, compile_success := true, last_modified := none }
    (st3, q.2, rescan)
  else
    ({ st0 with last_error := r.error }, g, false)

/-- `plugin_init` (clap_plugin.cc lines 363-446): compile the selected DSP
file; any unsuccessful result makes initialization fail; on success install
the binding directly (no prior binding exists) and query the parameter
metadata. -/
def plugin_init (env : DspEnv) (st : PState) (g : GParams) :
    Bool × PState × GParams :=
  let r := compile_dsp env
  if r.success then
    let st1 := { st with
      jit := r.jit, process_fn := r.process_fn,
      dsp_init := r.init_fn, dsp_destroy := r.destroy_fn }
    let q := query_dsp_params r st1 g
    (true, q.1, q.2)
  else (false, st, g)

/-- A fresh `PluginState` as `factory_create_plugin` builds it. -/
def initialPState : PState :=
  { jit := none, process_fn := none, reload_pending := false,
    pending_fn := none, pending_jit := none, pending_init := none,
    pending_destroy := none, dsp_init := none, dsp_destroy := none,
    sample_rate := 0, min_frames := 0, max_frames := 0,
    dsp_activated := false, param_info := [], gui_params := [],
    last_error := [], compile_success := false, last_modified := none }

def zeroParams : GParams := fun _ => 0

theorem foldl_queryStep_shape (r : CompileResult) (l : List Nat) :
    ∀ acc : PState × GParams, (∀ i ∈ l, i < 16) →
      ((l.foldl (queryStep r) acc).1.param_info.length
          = acc.1.param_info.length + l.length) ∧
      ((l.foldl (queryStep r) acc).1.gui_params.length
          = acc.1.gui_params.length + l.length) ∧
      (∀ j, 16 ≤ j → (l.foldl (queryStep r) acc).2 j = acc.2 j) := by
  induction l with
  | nil => intro acc _; simp
  | cons i rest ih =>
    intro acc hl
    have hi : i < 16 := hl i (by simp)
    have hrest : ∀ x ∈ rest, x < 16 := fun x hx => hl x (by simp [hx])
    simp only [List.foldl_cons, List.length_cons]
    obtain ⟨h1, h2, h3⟩ := ih (queryStep r acc i) hrest
    refine ⟨?_, ?_, ?_⟩
    · rw [h1]
      simp [queryStep]
      omega
    · rw [h2]
      simp [queryStep]
      omega
    · intro j hj
      rw [h3 j hj]
      simp only [queryStep]
      have : j ≠ i := by omega
      simp [this]

/-- C10: whatever the compiled unit's `param_count` export returns —
including counts above 16, zero or negative — `query_dsp_params` registers
at most 16 parameters, keeps the per-instance vectors in step, and writes
no `g_params` slot at or above index 16; without a `param_count` export it
registers exactly zero parameters. -/
theorem query_dsp_params_bounded (r : CompileResult) (st : PState)
    (g : GParams) :
    ((query_dsp_params r st g).1.param_info.length ≤ 16) ∧
    ((query_dsp_params r st g).1.gui_params.length
        = (query_dsp_params r st g).1.param_info.length) ∧
    (∀ j, 16 ≤ j → (query_dsp_params r st g).2 j = g j) ∧
    (r.param_count = none → (query_dsp_params r st g).1.param_info = []) := by
  match hc : r.param_count with
  | none => simp [query_dsp_params, hc]
  | some count =>
    have hmem : ∀ i ∈ List.range (min count.toNat 16), i < 16 := by
      intro i hi
      have := List.mem_range.mp hi
      omega
    obtain ⟨h1, h2, h3⟩ := foldl_queryStep_shape r (List.range (min count.toNat 16))
      ({ st with param_info := [], gui_params := [] }, g) hmem
    simp only [List.length_range] at h1 h2
    have hq : query_dsp_params r st g
        = (List.range (min count.toNat 16)).foldl (queryStep r)
            ({ st with param_info := [], gui_params := [] }, g) := by
      simp [query_dsp_params, hc]
    rw [hq]
    refine ⟨?_, ?_, ?_, ?_⟩
    · rw [h1]
      simp
    · rw [h2, h1]
      rfl
    · exact h3
    · intro habs
      exact absurd habs (by simp)

/-- The environment of a recompile whose DSP source has a frontend
compilation error (a syntax / semantic diagnostic), while the `process`
entry point itself would resolve fine. -/
def c3Env : DspEnv :=
  { jitId := 1, jitCreateErr := none, defineErr := none, libErrs := [],
    mainErr := some (.clap .compilationFailed
      (bytes ("use of undeclared identifier")) (bytes ("dsp.cc"))),
    processLookup := .ok 5, initLookup := none, destroyLookup := none,
    paramCountFn := none, paramNameFn := none, paramMinFn := none,
    paramMaxFn := none, paramDefaultFn := none }

/-- C3 counterexample: with no prior binding, a frontend compilation
failure — error kind `CompilationFailed`, not required-symbol-not-found
(the `process` lookup in this environment would succeed) — still makes
`plugin_init` return failure, refuting that absence of the processing
entry point is the only error condition failing initial activation. -/
theorem plugin_init_fails_on_compile_error :
    c3Env.processLookup = .ok 5 ∧
    c3Env.mainErr = some (.clap .compilationFailed
      (bytes ("use of undeclared identifier")) (bytes ("dsp.cc"))) ∧
    (plugin_init c3Env initialPState zeroParams).1 = false :=
  ⟨rfl, rfl, rfl⟩

/-- C3 amended: initial activation fails exactly when `compile_dsp` fails —
for ANY of its error conditions (JIT creation, symbol definition, lib or
DSP compile failure, or the missing `process` entry point), not only the
missing required symbol; a failed `plugin_init` leaves state and the
parameter array untouched; and after a prior successful activation a
failing recompile leaves the active binding (process function, lifecycle
hooks, owning JIT) unchanged. -/
theorem plugin_init_requires_success (env : DspEnv) (st : PState)
    (g : GParams) :
    ((plugin_init env st g).1 = (compile_dsp env).process_fn.isSome) ∧
    ((compile_dsp env).process_fn = none →
      plugin_init env st g = (false, st, g)) ∧
    ((compile_dsp env).process_fn = none →
      (do_recompile env st g).1.process_fn = st.process_fn ∧
      (do_recompile env st g).1.jit = st.jit ∧
      (do_recompile env st g).1.dsp_init = st.dsp_init ∧
      (do_recompile env st g).1.dsp_destroy = st.dsp_destroy) := by
  refine ⟨?_, ?_, ?_⟩
  · unfold plugin_init
    cases h : (compile_dsp env).process_fn <;>
      simp [CompileResult.success, h]
  · intro h
    unfold plugin_init
    simp [CompileResult.success, h]
  · intro h
    unfold do_recompile
    simp [CompileResult.success, h]

/-- Every error message a `DspEnv` can inject from an external LLVM error
is non-empty (true of `llvm::toString` on any real `llvm::Error`); the
messages built by `makeError` carry a non-empty category prefix by
construction. -/
def DspEnv.msgsNonempty (env : DspEnv) : Prop :=
  (∀ m, env.jitCreateErr = some m → m ≠ []) ∧
  (∀ m, env.defineErr = some m → m ≠ []) ∧
  (∀ e ∈ env.libErrs, ∀ m, e = some (.str m) → m ≠ []) ∧
  (∀ m, env.mainErr = some (.str m) → m ≠ []) ∧
  (∀ m, env.processLookup = .error m → m ≠ [])

theorem categoryMsg_ne (code : ErrorCode) : categoryMsg code ≠ [] := by
  cases code <;> simp [categoryMsg, bytes]

theorem makeErrorMsg_ne (code : ErrorCode) (msg file : Bytes) :
    makeErrorMsg code msg file ≠ [] := by
  unfold makeErrorMsg
  have hc := categoryMsg_ne code
  by_cases hm : msg = [] <;> by_cases hf : file = [] <;>
    simp_all [List.append_assoc]

theorem firstLibErr_mem (l : List (Option JitError)) (e : JitError)
    (h : firstLibErr l = some e) : some e ∈ l := by
  induction l with
  | nil => exact absurd h (by simp [firstLibErr])
  | cons a rest ih =>
    match a with
    | some x =>
      simp only [firstLibErr, Option.some.injEq] at h
      simp [h]
    | none =>
      simp only [firstLibErr] at h
      exact List.mem_cons_of_mem _ (ih h)

theorem compile_dsp_error_ne (env : DspEnv) (hmsg : env.msgsNonempty)
    (hfail : (compile_dsp env).process_fn = none) :
    (compile_dsp env).error ≠ [] := by
  obtain ⟨h1, h2, h3, h4, h5⟩ := hmsg
  unfold compile_dsp at hfail ⊢
  match hjc : env.jitCreateErr with
  | some m => exact h1 m hjc
  | none =>
    simp only [hjc] at hfail ⊢
    match hde : env.defineErr with
    | some m => exact h2 m hde
    | none =>
      simp only [hde] at hfail ⊢
      match hle : firstLibErr env.libErrs with
      | some e =>
        match e with
        | .clap code m f => exact makeErrorMsg_ne code m f
        | .str m => exact h3 _ (firstLibErr_mem _ _ hle) m rfl
      | none =>
        simp only [hle] at hfail ⊢
        match hme : env.mainErr with
        | some e =>
          match e with
          | .clap code m f => exact makeErrorMsg_ne code m f
          | .str m => exact h4 m hme
        | none =>
          simp only [hme] at hfail ⊢
          match hpl : env.processLookup with
          | .error m => exact h5 m hpl
          | .ok addr => simp [hpl] at hfail

/-- C7: a failing recompile leaves the whole plugin state unchanged except
for the GUI status fields — the active binding, the pending binding, the
swap flag and the exported parameter metadata are untouched, the global
parameter array is untouched, the host is not asked to rescan — and a
non-empty diagnostic is surfaced in `last_error`. -/
theorem do_recompile_failure_preserves (env : DspEnv) (st : PState)
    (g : GParams) (hfail : (compile_dsp env).process_fn = none)
    (hmsg : env.msgsNonempty) :
    do_recompile env st g
      = ({ st with
            last_error := (compile_dsp env).error,
            compile_success := false }, g, false)
    ∧ (compile_dsp env).error ≠ [] := by
  refine ⟨?_, compile_dsp_error_ne env hmsg hfail⟩
  unfold do_recompile
  simp [CompileResult.success, hfail]

/-- Witness for C7 at a concrete input: the syntax-error environment
`c3Env` on a fresh plugin state. -/
theorem do_recompile_failure_witness :
    do_recompile c3Env initialPState zeroParams
      = ({ initialPState with
            last_error := (compile_dsp c3Env).error,
            compile_success := false }, zeroParams, false)
    ∧ (compile_dsp c3Env).error ≠ [] :=
  do_recompile_failure_preserves c3Env initialPState zeroParams rfl
    (by
      refine ⟨?_, ?_, ?_, ?_, ?_⟩ <;> intros <;> simp_all [c3Env])

/-! ## The real-time processing path (`plugin_process`, clap_plugin.cc
lines 523-593)

`plugin_process` is sequential code on the audio thread; its effects are
captured as a state transformer together with an event trace recording, in
order, every call it makes into compiled code and the destruction of the
retired JIT (the `std::unique_ptr` move-assignment that frees the old
execution context). -/

inductive Event where
  | callDestroy (fid : Nat)
  | releaseJit (jid : Nat)
  | callInit (fid : Nat) (sr : ℚ) (minf maxf : Nat)
  | callProcess (fid : Nat)
  deriving DecidableEq, Repr

/-- The host-supplied `clap_process_t` data consulted by one call:
parameter events, whether audio buffers are present (non-null pointers and
at least one port each way), and the buffer geometry. -/
structure ProcessCtx where
  hostEvents : List (Nat × ℚ)
  has_audio : Bool
  in_channels : Nat
  out_channels : Nat
  frames_count : Nat
  deriving DecidableEq, Repr

inductive ClapStatus where
  | processContinue
  | processError
  deriving DecidableEq, Repr

/-- The hot-swap block at the top of `plugin_process`: on an observed
reload flag, call the old `destroy` (only while activated), move the
pending JIT into place — destroying the old one — install the pending
function pointers, clear the flag, and call the new `init` with the
recorded operating parameters. -/
def swapBlock (st : PState) : PState × List Event :=
  if st.reload_pending then
    let evs1 := match st.dsp_activated, st.dsp_destroy with
      | true, some d => [Event.callDestroy d]
      | _, _ => []
    let evs2 := match st.jit with
      | some j => [Event.releaseJit j]
      | none => []
    let st1 := { st with
      jit := st.pending_jit, pending_jit := none,
      process_fn := st.pending_fn, dsp_init := st.pending_init,
      dsp_destroy := st.pending_destroy, reload_pending := false }
    let evs3 := match st.dsp_activated, st1.dsp_init with
      | true, some i => [Event.callInit i st.sample_rate st.min_frames st.max_frames]
      | _, _ => []
    (st1, evs1 ++ evs2 ++ evs3)
  else (st, [])

/-- The per-block `g_params[i] = gui_params[i]` sync loop. -/
def syncGuiParams (st : PState) (g : GParams) : GParams :=
  fun j => if h : j < st.gui_params.length then st.gui_params.get ⟨j, h⟩ else g j

/-- The incoming CLAP parameter-event loop: in-range events write both
`g_params` and `gui_params`. -/
def applyHostEvents (events : List (Nat × ℚ)) (st : PState) (g : GParams) :
    PState × GParams :=
  events.foldl
    (fun acc ev =>
      if ev.1 < acc.1.gui_params.length then
        ({ acc.1 with gui_params := acc.1.gui_params.set ev.1 ev.2 },
         fun j => if j = ev.1 then ev.2 else acc.2 j)
      else acc)
    (st, g)

/-- The tail of `plugin_process`: load the process pointer (null is an
error), check the audio buffers (absent is an error), and call through the
pointer unless the block is empty. -/
def processCall (ctx : ProcessCtx) (fn : Option Nat) : ClapStatus × List Event :=
  match fn with
  | none => (.processError, [])
  | some f =>
    if !ctx.has_audio then (.processError, [])
    else if min ctx.in_channels ctx.out_channels = 0 ∨ ctx.frames_count = 0 then
      (.processContinue, [])
    else (.processContinue, [Event.callProcess f])

def plugin_process (ctx : ProcessCtx) (st : PState) (g : GParams) :
    PState × GParams × ClapStatus × List Event :=
  let sw := swapBlock st
  let g1 := syncGuiParams sw.1 g
  let he := applyHostEvents ctx.hostEvents sw.1 g1
  let pc := processCall ctx he.1.process_fn
  (he.1, he.2, pc.1, sw.2 ++ pc.2)

theorem applyHostEvents_binding (events : List (Nat × ℚ)) :
    ∀ st g,
      ((applyHostEvents events st g).1.process_fn = st.process_fn) ∧
      ((applyHostEvents events st g).1.jit = st.jit) ∧
      ((applyHostEvents events st g).1.dsp_init = st.dsp_init) ∧
      ((applyHostEvents events st g).1.dsp_destroy = st.dsp_destroy) ∧
      ((applyHostEvents events st g).1.reload_pending = st.reload_pending) ∧
      ((applyHostEvents events st g).1.pending_jit = st.pending_jit) := by
  induction events with
  | nil => intro st g; simp [applyHostEvents]
  | cons ev rest ih =>
    intro st g
    simp only [applyHostEvents, List.foldl_cons] at ih ⊢
    by_cases h : ev.1 < st.gui_params.length
    · simpa [h] using ih _ _
    · simpa [h] using ih _ _

/-- C2: when the consumer observes the swap flag at the start of a
processing block (while activated), the block performs exactly: the old
binding's teardown hook if present, then the release of the old execution
context and the installation of the pending callable addresses and hooks,
then the new binding's setup hook if present with the previously recorded
sample rate and block-size bounds — all before any call through the new
processing function; the resulting state carries the complete pending
binding and a cleared flag. -/
theorem plugin_process_swap_sequence (ctx : ProcessCtx) (st : PState)
    (g : GParams) (hact : st.dsp_activated = true)
    (hrel : st.reload_pending = true) :
    ((plugin_process ctx st g).1.process_fn = st.pending_fn ∧
     (plugin_process ctx st g).1.jit = st.pending_jit ∧
     (plugin_process ctx st g).1.dsp_init = st.pending_init ∧
     (plugin_process ctx st g).1.dsp_destroy = st.pending_destroy ∧
     (plugin_process ctx st g).1.reload_pending = false) ∧
    (plugin_process ctx st g).2.2.2
      = (match st.dsp_destroy with
          | some d => [Event.callDestroy d]
          | none => [])
        ++ (match st.jit with
          | some j => [Event.releaseJit j]
          | none => [])
        ++ (match st.pending_init with
          | some i => [Event.callInit i st.sample_rate st.min_frames st.max_frames]
          | none => [])
        ++ (processCall ctx st.pending_fn).2 := by
  obtain ⟨h1, h2, h3, h4, h5, h6⟩ :=
    applyHostEvents_binding ctx.hostEvents (swapBlock st).1
      (syncGuiParams (swapBlock st).1 g)
  have hsw : swapBlock st
      = ({ st with
            jit := st.pending_jit, pending_jit := none,
            process_fn := st.pending_fn, dsp_init := st.pending_init,
            dsp_destroy := st.pending_destroy, reload_pending := false },
         (match st.dsp_activated, st.dsp_destroy with
           | true, some d => [Event.callDestroy d]
           | _, _ => [])
         ++ (match st.jit with
           | some j => [Event.releaseJit j]
           | none => [])
         ++ (match st.dsp_activated, st.pending_init with
           | true, some i => [Event.callInit i st.sample_rate st.min_frames st.max_frames]
           | _, _ => [])) := by
    simp [swapBlock, hrel]
  constructor
  · refine ⟨?_, ?_, ?_, ?_, ?_⟩
    · simp only [plugin_process]
      rw [h1, hsw]
    · simp only [plugin_process]
      rw [h2, hsw]
    · simp only [plugin_process]
      rw [h3, hsw]
    · simp only [plugin_process]
      rw [h4, hsw]
    · simp only [plugin_process]
      rw [h5, hsw]
  · simp only [plugin_process]
    rw [h1, hsw]
    simp only [hact]
    cases st.dsp_destroy <;> cases st.pending_init <;> rfl

/-- A concrete activated state with a full pending binding and the swap
flag set. -/
def c2State : PState :=
  { initialPState with
      dsp_activated := true, reload_pending := true,
      jit := some 1, process_fn := some 2, dsp_init := some 3,
      dsp_destroy := some 4, pending_fn := some 12,
      pending_jit := some 11, pending_init := some 13,
      pending_destroy := some 14, sample_rate := 48000,
      min_frames := 32, max_frames := 256 }

/-- A concrete host block: no parameter events, stereo buffers, 64
frames. -/
def c2Ctx : ProcessCtx := ⟨[], true, 2, 2, 64⟩

/-- Witness for C2 at the concrete input `c2Ctx`/`c2State`. -/
theorem plugin_process_swap_sequence_witness :
    ((plugin_process c2Ctx c2State zeroParams).1.process_fn = c2State.pending_fn ∧
     (plugin_process c2Ctx c2State zeroParams).1.jit = c2State.pending_jit ∧
     (plugin_process c2Ctx c2State zeroParams).1.dsp_init = c2State.pending_init ∧
     (plugin_process c2Ctx c2State zeroParams).1.dsp_destroy = c2State.pending_destroy ∧
     (plugin_process c2Ctx c2State zeroParams).1.reload_pending = false) ∧
    (plugin_process c2Ctx c2State zeroParams).2.2.2
      = (match c2State.dsp_destroy with
          | some d => [Event.callDestroy d]
          | none => [])
        ++ (match c2State.jit with
          | some j => [Event.releaseJit j]
          | none => [])
        ++ (match c2State.pending_init with
          | some i => [Event.callInit i c2State.sample_rate c2State.min_frames
              c2State.max_frames]
          | none => [])
        ++ (processCall c2Ctx c2State.pending_fn).2 :=
  plugin_process_swap_sequence c2Ctx c2State zeroParams rfl rfl

/-! ## Hot-swap publish protocol: two-thread interleaving model

The control path (`do_recompile`, main thread) writes the four plain
`pending_*` fields in program order and then release-stores
`reload_pending`; the real-time consumer (`plugin_process`, audio thread)
acquire-loads the flag and, when set, performs the swap field by field.
With one writer and one reader the release/acquire pair makes program
order visible, so the protocol is modelled by sequentially consistent
interleaving of the two threads' primitive steps.  Function pointers and
JIT instances are ids (0 = null/moved-from). -/

/-- One complete binding: process function, init hook, destroy hook and
owning JIT. -/
structure Binding where
  fn : Nat
  ini : Nat
  des : Nat
  jid : Nat
  deriving DecidableEq, Repr

/-- The shared `PluginState` fields the two threads race on. -/
structure Shared where
  reload_pending : Bool
  pending_fn : Nat
  pending_init : Nat
  pending_destroy : Nat
  pending_jit : Nat
  process_fn : Nat
  dsp_init : Nat
  dsp_destroy : Nat
  jit : Nat
  deriving DecidableEq, Repr

/-- The binding the consumer would use for this block's invocation. -/
def installed (s : Shared) : Binding :=
  ⟨s.process_fn, s.dsp_init, s.dsp_destroy, s.jit⟩

/-- Primitive control-path writes (clap_plugin.cc lines 334-337 and
352). -/
inductive COp where
  | wPfn (v : Nat)
  | wPinit (v : Nat)
  | wPdest (v : Nat)
  | wPjit (v : Nat)
  | wFlag
  deriving DecidableEq, Repr

def applyCOp : COp → Shared → Shared
  | .wPfn v, s => { s with pending_fn := v }
  | .wPinit v, s => { s with pending_init := v }
  | .wPdest v, s => { s with pending_destroy := v }
  | .wPjit v, s => { s with pending_jit := v }
  | .wFlag, s => { s with reload_pending := true }

/-- The write sequence of a successful `do_recompile` publishing binding
`b`, in source order. -/
def publishOps (b : Binding) : List COp :=
  [.wPfn b.fn, .wPinit b.ini, .wPdest b.des, .wPjit b.jid, .wFlag]

/-- One primitive step of the consumer's swap prologue, as a program
counter over the statements of `plugin_process` lines 528-547: pc 0 checks
the flag (branching to the swap path or to the no-swap terminal pc 6);
pcs 1-5 are the swap statements in source order (the teardown call between
the check and the move touches no shared field); pc 7 is the
swap-completed terminal at which the block's invocation proceeds. -/
def rtStep : Nat → Shared → Nat × Shared
  | 0, s => if s.reload_pending then (1, s) else (6, s)
  | 1, s => (2, { s with jit := s.pending_jit, pending_jit := 0 })
  | 2, s => (3, { s with process_fn := s.pending_fn })
  | 3, s => (4, { s with dsp_init := s.pending_init })
  | 4, s => (5, { s with dsp_destroy := s.pending_destroy })
  | 5, s => (7, { s with reload_pending := false })
  | n, s => (n, s)

structure Config where
  cpc : Nat
  rpc : Nat
  s : Shared
  deriving DecidableEq, Repr

/-- One interleaving step: `true` advances the control thread, `false` the
real-time thread. -/
def step (prog : List COp) (t : Bool) (c : Config) : Config :=
  if t then
    match prog[c.cpc]? with
    | some op => { c with cpc := c.cpc + 1, s := applyCOp op c.s }
    | none => c
  else
    let r := rtStep c.rpc c.s
    { c with rpc := r.1, s := r.2 }

def run (prog : List COp) (sched : List Bool) (c : Config) : Config :=
  sched.foldl (fun c t => step prog t c) c

/-- Initial shared state: flag as given, pending binding `p`, installed
binding `inst`. -/
def mkShared (flag : Bool) (p inst : Binding) : Shared :=
  { reload_pending := flag, pending_fn := p.fn, pending_init := p.ini,
    pending_destroy := p.des, pending_jit := p.jid,
    process_fn := inst.fn, dsp_init := inst.ini, dsp_destroy := inst.des,
    jit := inst.jid }

/-- C1 counterexample: start with binding `⟨20,21,22,23⟩` installed and a
completed publish of `⟨30,31,32,33⟩` (flag set); while the consumer is
mid-swap — it has already taken ownership of JIT 33 — the control path
runs a second complete publish of `⟨40,41,42,43⟩` (`do_recompile` never
checks whether a swap is still pending before overwriting the plain
`pending_*` fields).  The consumer finishes its swap and its completed
prologue (rpc 7) invokes the binding `⟨40,41,42,33⟩`: process function,
init hook and destroy hook of the newest publish paired with the JIT of
the previous one — neither the old binding nor either published binding,
refuting the fully-old-or-fully-new guarantee. -/
theorem hot_swap_torn_binding :
    (run (publishOps ⟨40, 41, 42, 43⟩)
      [false, false, true, true, true, true, true, false, false, false, false]
      ⟨0, 0, mkShared true ⟨30, 31, 32, 33⟩ ⟨20, 21, 22, 23⟩⟩).rpc = 7 ∧
    installed (run (publishOps ⟨40, 41, 42, 43⟩)
      [false, false, true, true, true, true, true, false, false, false, false]
      ⟨0, 0, mkShared true ⟨30, 31, 32, 33⟩ ⟨20, 21, 22, 23⟩⟩).s
      = ⟨40, 41, 42, 33⟩ ∧
    (⟨40, 41, 42, 33⟩ : Binding) ≠ ⟨20, 21, 22, 23⟩ ∧
    (⟨40, 41, 42, 33⟩ : Binding) ≠ ⟨30, 31, 32, 33⟩ ∧
    (⟨40, 41, 42, 33⟩ : Binding) ≠ ⟨40, 41, 42, 43⟩ := by
  decide

/-- The inductive invariant of a run in which the control thread performs
exactly one publish of `b`, from pending `p` and installed `o` with the
flag initially clear. -/
def Inv (b p o : Binding) (c : Config) : Prop :=
  c.cpc ≤ 5 ∧ c.rpc ≤ 7 ∧
  c.s.pending_fn = (if 1 ≤ c.cpc then b.fn else p.fn) ∧
  c.s.pending_init = (if 2 ≤ c.cpc then b.ini else p.ini) ∧
  c.s.pending_destroy = (if 3 ≤ c.cpc then b.des else p.des) ∧
  c.s.pending_jit = (if 2 ≤ c.rpc ∧ c.rpc ≠ 6 then 0
    else if 4 ≤ c.cpc then b.jid else p.jid) ∧
  (c.s.reload_pending = true → c.cpc = 5) ∧
  (1 ≤ c.rpc ∧ c.rpc ≠ 6 → c.cpc = 5) ∧
  c.s.process_fn = (if 3 ≤ c.rpc ∧ c.rpc ≠ 6 then b.fn else o.fn) ∧
  c.s.dsp_init = (if 4 ≤ c.rpc ∧ c.rpc ≠ 6 then b.ini else o.ini) ∧
  c.s.dsp_destroy = (if 5 ≤ c.rpc ∧ c.rpc ≠ 6 then b.des else o.des) ∧
  c.s.jit = (if 2 ≤ c.rpc ∧ c.rpc ≠ 6 then b.jid else o.jid)

theorem inv_step (b p o : Binding) (t : Bool) (c : Config)
    (h : Inv b p o c) : Inv b p o (step (publishOps b) t c) := by
  obtain ⟨cpc, rpc, s⟩ := c
  obtain ⟨h1, h2, h3, h4, h5, h6, h7, h8, h9, h10, h11, h12⟩ := h
  simp only [Inv] at *
  cases t with
  | true =>
    by_cases hc5 : cpc = 5
    · subst hc5
      have hnone : (publishOps b)[5]? = none := rfl
      simp only [step, if_pos rfl, hnone]
      exact ⟨h1, h2, h3, h4, h5, h6, h7, h8, h9, h10, h11, h12⟩
    · have hr : rpc = 0 ∨ rpc = 6 := by
        by_cases h1r : 1 ≤ rpc ∧ rpc ≠ 6
        · exact absurd (h8 h1r) hc5
        · omega
      rcases hr with hr | hr <;> subst hr <;>
        interval_cases cpc <;>
          simp_all [step, publishOps, applyCOp]
  | false =>
    interval_cases rpc <;>
      by_cases hf : s.reload_pending <;>
        simp_all [step, rtStep]

theorem inv_run (b p o : Binding) (sched : List Bool) (c : Config)
    (h : Inv b p o c) : Inv b p o (run (publishOps b) sched c) := by
  induction sched generalizing c with
  | nil => exact h
  | cons t rest ih =>
    simp only [run, List.foldl_cons] at ih ⊢
    exact ih _ (inv_step b p o t c h)

/-- C1 amended: provided the control path does not begin publishing a
newer binding while the consumer is mid-swap — i.e. for a run containing
one publish of binding `b` over a quiescent initial state (flag clear,
old binding `o` installed, stale pending values `p`) — every interleaving
is atomic for the consumer: a processing block whose prologue completes
through the swap path (rpc 7) invokes exactly the complete new binding
`b`, and one that completes without swapping (rpc 6) invokes exactly the
complete old binding `o`; no completed prologue ever observes fields of
two bindings mixed. -/
theorem hot_swap_single_publish_atomic (b p o : Binding)
    (sched : List Bool) (final : Config)
    (hrun : final = run (publishOps b) sched ⟨0, 0, mkShared false p o⟩) :
    (final.rpc = 7 → installed final.s = b) ∧
    (final.rpc = 6 → installed final.s = o) ∧
    (final.rpc = 0 → installed final.s = o) := by
  have hinv : Inv b p o final := by
    rw [hrun]
    refine inv_run b p o sched _ ?_
    simp [Inv, mkShared]
  obtain ⟨-, -, -, -, -, -, -, -, h9, h10, h11, h12⟩ := hinv
  refine ⟨?_, ?_, ?_⟩ <;> intro hr <;>
    rw [hr] at h9 h10 h11 h12 <;>
    simp only [installed, h9, h10, h11, h12] <;>
    simp

/-- Witness for the amended C1 theorem at a concrete input: a schedule
that lets the consumer observe the publish of `⟨40,41,42,43⟩` mid-way
(three real-time steps, then the five publish steps, then the rest);
because only one publish happens, the completed swap installs the
complete new binding. -/
theorem hot_swap_single_publish_atomic_witness :
    ((run (publishOps ⟨40, 41, 42, 43⟩)
      [true, true, true, true, true, false, false, false, false, false, false]
      ⟨0, 0, mkShared false ⟨30, 31, 32, 33⟩ ⟨20, 21, 22, 23⟩⟩).rpc = 7 →
      installed (run (publishOps ⟨40, 41, 42, 43⟩)
        [true, true, true, true, true, false, false, false, false, false, false]
        ⟨0, 0, mkShared false ⟨30, 31, 32, 33⟩ ⟨20, 21, 22, 23⟩⟩).s
        = ⟨40, 41, 42, 43⟩) ∧
    ((run (publishOps ⟨40, 41, 42, 43⟩)
      [true, true, true, true, true, false, false, false, false, false, false]
      ⟨0, 0, mkShared false ⟨30, 31, 32, 33⟩ ⟨20, 21, 22, 23⟩⟩).rpc = 6 →
      installed (run (publishOps ⟨40, 41, 42, 43⟩)
        [true, true, true, true, true, false, false, false, false, false, false]
        ⟨0, 0, mkShared false ⟨30, 31, 32, 33⟩ ⟨20, 21, 22, 23⟩⟩).s
        = ⟨20, 21, 22, 23⟩) ∧
    ((run (publishOps ⟨40, 41, 42, 43⟩)
      [true, true, true, true, true, false, false, false, false, false, false]
      ⟨0, 0, mkShared false ⟨30, 31, 32, 33⟩ ⟨20, 21, 22, 23⟩⟩).rpc = 0 →
      installed (run (publishOps ⟨40, 41, 42, 43⟩)
        [true, true, true, true, true, false, false, false, false, false, false]
        ⟨0, 0, mkShared false ⟨30, 31, 32, 33⟩ ⟨20, 21, 22, 23⟩⟩).s
        = ⟨20, 21, 22, 23⟩) :=
  hot_swap_single_publish_atomic ⟨40, 41, 42, 43⟩ ⟨30, 31, 32, 33⟩
    ⟨20, 21, 22, 23⟩
    [true, true, true, true, true, false, false, false, false, false, false]
    (run (publishOps ⟨40, 41, 42, 43⟩)
      [true, true, true, true, true, false, false, false, false, false, false]
      ⟨0, 0, mkShared false ⟨30, 31, 32, 33⟩ ⟨20, 21, 22, 23⟩⟩) rfl

end ClapRT
